import Mathlib

/-!
Verification of the oasis-core worker node core against its specification.

The development shallowly embeds the Rust source:
  * src/runtime/src/protocol.rs        (worker-host protocol multiplexer)
  * src/runtime/src/consensus/roothash.rs (header hashing)
  * src/compute/src/worker.rs          (batch executor)
  * src/runtime/client/src/manager.rs  (runtime client manager)
  * src/common/src/node.rs             (node protobuf conversion)

Machine integers are modelled as Nat with explicit reductions modulo 2^w.
Byte strings are lists of Nat, each element below 256.
-/

namespace Oasis

/-! ## Byte utilities -/

/-- Big-endian encoding of a natural number in exactly `k` bytes
(the value is taken modulo `2 ^ (8 * k)`). -/
def beBytes : Nat → Nat → List Nat
  | 0, _ => []
  | k + 1, n => beBytes k (n / 256) ++ [n % 256]

/-- Big-endian decoding of a byte list into a natural number. -/
def fromBe (bs : List Nat) : Nat :=
  bs.foldl (fun acc b => acc * 256 + b) 0

/-! ## CBOR model

The Rust sources serialize all protocol messages and consensus headers with
`cbor::to_vec` / `cbor::from_slice`.  The cbor helper module itself is not part
of the sources at hand; it is modelled from the spec, which states that a
message is CBOR encoded and that "CBOR must use canonical encoding for
deterministic hashing of headers" (canonical RFC 7049 form: minimal-length
heads, map keys ordered by encoded length first and bytewise second).  The
model is validated against the deterministic hash vectors of claim C8, which
pin down the encoding byte for byte. -/

/-- A CBOR data item (the fragment used by the worker-host protocol and the
roothash structures: unsigned integers, byte strings, UTF-8 text strings,
arrays, maps and null). -/
inductive Cbor where
  | uint (n : Nat)
  | bytes (b : List Nat)
  | text (s : List Nat)
  | arr (xs : List Cbor)
  | map (kvs : List (Cbor × Cbor))
  | null

/-- Canonical (minimal length) encoding of a CBOR head with the given major
type and argument value. -/
def encodeHead (major n : Nat) : List Nat :=
  if n < 24 then [major * 32 + n]
  else if n < 256 then [major * 32 + 24] ++ beBytes 1 n
  else if n < 65536 then [major * 32 + 25] ++ beBytes 2 n
  else if n < 4294967296 then [major * 32 + 26] ++ beBytes 4 n
  else [major * 32 + 27] ++ beBytes 8 n

mutual

/-- Canonical CBOR encoding of a data item. -/
def Cbor.encode : Cbor → List Nat
  | .uint n => encodeHead 0 n
  | .bytes b => encodeHead 2 b.length ++ b
  | .text s => encodeHead 3 s.length ++ s
  | .arr xs => encodeHead 4 xs.length ++ Cbor.encodeList xs
  | .map kvs => encodeHead 5 kvs.length ++ Cbor.encodePairs kvs
  | .null => [0xf6]

/-- Encoding of a sequence of CBOR items. -/
def Cbor.encodeList : List Cbor → List Nat
  | [] => []
  | x :: xs => x.encode ++ Cbor.encodeList xs

/-- Encoding of a sequence of CBOR key/value pairs. -/
def Cbor.encodePairs : List (Cbor × Cbor) → List Nat
  | [] => []
  | (k, v) :: kvs => k.encode ++ v.encode ++ Cbor.encodePairs kvs

end

mutual

/-- Well-formedness: integer arguments fit in 64 bits and string payloads are
bytes. -/
def Cbor.wf : Cbor → Bool
  | .uint n => n < 2 ^ 64
  | .bytes b => b.length < 2 ^ 64 && b.all (· < 256)
  | .text s => s.length < 2 ^ 64 && s.all (· < 256)
  | .arr xs => xs.length < 2 ^ 64 && Cbor.wfList xs
  | .map kvs => kvs.length < 2 ^ 64 && Cbor.wfPairs kvs
  | .null => true

def Cbor.wfList : List Cbor → Bool
  | [] => true
  | x :: xs => x.wf && Cbor.wfList xs

def Cbor.wfPairs : List (Cbor × Cbor) → Bool
  | [] => true
  | (k, v) :: kvs => k.wf && v.wf && Cbor.wfPairs kvs

end

mutual

/-- Nesting depth of a CBOR item, used as decoder fuel. -/
def Cbor.depth : Cbor → Nat
  | .uint _ => 1
  | .bytes _ => 1
  | .text _ => 1
  | .arr xs => Cbor.depthList xs + 1
  | .map kvs => Cbor.depthPairs kvs + 1
  | .null => 1

def Cbor.depthList : List Cbor → Nat
  | [] => 0
  | x :: xs => max x.depth (Cbor.depthList xs)

def Cbor.depthPairs : List (Cbor × Cbor) → Nat
  | [] => 0
  | (k, v) :: kvs => max (max k.depth v.depth) (Cbor.depthPairs kvs)

end

/-- Decoding of a CBOR head: returns the major type, the argument value and
the remaining bytes. -/
def decodeHead : List Nat → Option (Nat × Nat × List Nat)
  | [] => none
  | b :: rest =>
    let major := b / 32
    let ai := b % 32
    if ai < 24 then some (major, ai, rest)
    else if ai ≤ 27 then
      let k := 2 ^ (ai - 24)
      if k ≤ rest.length then some (major, fromBe (rest.take k), rest.drop k)
      else none
    else none

mutual

/-- Fuel-indexed decoding of one CBOR item from a byte list; returns the item
and the unconsumed remainder. The fuel is decremented at every recursive call
so the recursion is structural; `Cbor.cost` below bounds the fuel any item
needs. -/
def decodeCbor : Nat → List Nat → Option (Cbor × List Nat)
  | 0, _ => none
  | fuel + 1, bs =>
    match decodeHead bs with
    | none => none
    | some (major, n, rest) =>
      if major = 0 then some (.uint n, rest)
      else if major = 2 then
        if n ≤ rest.length then some (.bytes (rest.take n), rest.drop n) else none
      else if major = 3 then
        if n ≤ rest.length then some (.text (rest.take n), rest.drop n) else none
      else if major = 4 then
        match decodeItems fuel n rest with
        | some (xs, r) => some (.arr xs, r)
        | none => none
      else if major = 5 then
        match decodePairs fuel n rest with
        | some (kvs, r) => some (.map kvs, r)
        | none => none
      else if major = 7 then
        if n = 22 then some (.null, rest) else none
      else none

/-- Decoding of `n` consecutive CBOR items. -/
def decodeItems : Nat → Nat → List Nat → Option (List Cbor × List Nat)
  | _, 0, bs => some ([], bs)
  | 0, _ + 1, _ => none
  | fuel + 1, n + 1, bs =>
    match decodeCbor fuel bs with
    | some (x, r) =>
      match decodeItems fuel n r with
      | some (xs, r') => some (x :: xs, r')
      | none => none
    | none => none

/-- Decoding of `n` consecutive CBOR key/value pairs. -/
def decodePairs : Nat → Nat → List Nat → Option (List (Cbor × Cbor) × List Nat)
  | _, 0, bs => some ([], bs)
  | 0, _ + 1, _ => none
  | fuel + 1, n + 1, bs =>
    match decodeCbor fuel bs with
    | some (k, r) =>
      match decodeCbor fuel r with
      | some (v, r') =>
        match decodePairs fuel n r' with
        | some (kvs, r'') => some ((k, v) :: kvs, r'')
        | none => none
      | none => none
    | none => none

end

mutual

/-- Fuel needed by `decodeCbor` to decode the encoding of an item. -/
def Cbor.cost : Cbor → Nat
  | .uint _ => 1
  | .bytes _ => 1
  | .text _ => 1
  | .arr xs => Cbor.costItems xs + 1
  | .map kvs => Cbor.costPairs kvs + 1
  | .null => 1

def Cbor.costItems : List Cbor → Nat
  | [] => 0
  | x :: xs => max x.cost (Cbor.costItems xs) + 1

def Cbor.costPairs : List (Cbor × Cbor) → Nat
  | [] => 0
  | (k, v) :: kvs => max (max k.cost v.cost) (Cbor.costPairs kvs) + 1

end

/-- Deserialization of a byte buffer into a single CBOR item; trailing bytes
are rejected, mirroring `cbor::from_slice`. -/
def cborFromSlice (bs : List Nat) : Option Cbor :=
  match decodeCbor (2 * bs.length) bs with
  | some (v, []) => some v
  | _ => none

/-! ## SHA-512/256

All identifiers and roots in the data model are 32-byte hashes; the digest
algorithm is SHA-512/256 (FIPS 180-4).  The spec fixes this: "The hash used to
key a value is SHA-512/256" and "Header digest is the CBOR encoding
SHA-512/256".  Words are 64-bit, modelled as Nat reduced modulo 2^64. -/

/-- Round constants of SHA-512 (FIPS 180-4), as decimal 64-bit values. -/
def shaK : List Nat := [
  4794697086780616226, 8158064640168781261, 13096744586834688815,
  16840607885511220156, 4131703408338449720, 6480981068601479193,
  10538285296894168987, 12329834152419229976, 15566598209576043074,
  1334009975649890238, 2608012711638119052, 6128411473006802146,
  8268148722764581231, 9286055187155687089, 11230858885718282805,
  13951009754708518548, 16472876342353939154, 17275323862435702243,
  1135362057144423861, 2597628984639134821, 3308224258029322869,
  5365058923640841347, 6679025012923562964, 8573033837759648693,
  10970295158949994411, 12119686244451234320, 12683024718118986047,
  13788192230050041572, 14330467153632333762, 15395433587784984357,
  489312712824947311, 1452737877330783856, 2861767655752347644,
  3322285676063803686, 5560940570517711597, 5996557281743188959,
  7280758554555802590, 8532644243296465576, 9350256976987008742,
  10552545826968843579, 11727347734174303076, 12113106623233404929,
  14000437183269869457, 14369950271660146224, 15101387698204529176,
  15463397548674623760, 17586052441742319658, 1182934255886127544,
  1847814050463011016, 2177327727835720531, 2830643537854262169,
  3796741975233480872, 4115178125766777443, 5681478168544905931,
  6601373596472566643, 7507060721942968483, 8399075790359081724,
  8693463985226723168, 9568029438360202098, 10144078919501101548,
  10430055236837252648, 11840083180663258601, 13761210420658862357,
  14299343276471374635, 14566680578165727644, 15097957966210449927,
  16922976911328602910, 17689382322260857208, 500013540394364858,
  748580250866718886, 1242879168328830382, 1977374033974150939,
  2944078676154940804, 3659926193048069267, 4368137639120453308,
  4836135668995329356, 5532061633213252278, 6448918945643986474,
  6902733635092675308, 7801388544844847127]

/-- Initial hash value of SHA-512/256 (FIPS 180-4), as decimal 64-bit values. -/
def shaIV : List Nat := [
  2463787394917988140, 11481187982095705282, 2563595384472711505,
  10824532655140301501, 10819967247969091555, 13717434660681038226,
  3098927326965381290, 1060366662362279074]

/-- Right rotation of a 64-bit word. -/
def rotr64 (n x : Nat) : Nat := ((x >>> n) ||| (x <<< (64 - n))) % 2 ^ 64

def shaCh (x y z : Nat) : Nat := (x &&& y) ^^^ ((x ^^^ (2 ^ 64 - 1)) &&& z)

def shaMaj (x y z : Nat) : Nat := (x &&& y) ^^^ (x &&& z) ^^^ (y &&& z)

def bigSigma0 (x : Nat) : Nat := rotr64 28 x ^^^ rotr64 34 x ^^^ rotr64 39 x

def bigSigma1 (x : Nat) : Nat := rotr64 14 x ^^^ rotr64 18 x ^^^ rotr64 41 x

def smallSigma0 (x : Nat) : Nat := rotr64 1 x ^^^ rotr64 8 x ^^^ (x >>> 7)

def smallSigma1 (x : Nat) : Nat := rotr64 19 x ^^^ rotr64 61 x ^^^ (x >>> 6)

/-- Split a byte list into big-endian 64-bit words (the fuel makes the
recursion structural; it is instantiated with the list length). -/
def chunkWords : Nat → List Nat → List Nat
  | 0, _ => []
  | _, [] => []
  | fuel + 1, b :: bs => fromBe ((b :: bs).take 8) :: chunkWords fuel ((b :: bs).drop 8)

/-- Split a byte list into 128-byte blocks. -/
def chunkBlocks : Nat → List Nat → List (List Nat)
  | 0, _ => []
  | _, [] => []
  | fuel + 1, b :: bs => ((b :: bs).take 128) :: chunkBlocks fuel ((b :: bs).drop 128)

/-- Extend the 16 message words of a block to the 80-word schedule. -/
def shaSchedule (ws : List Nat) : List Nat :=
  (List.range 64).foldl
    (fun w _ =>
      let l := w.length
      let wNew := (smallSigma1 (w.getD (l - 2) 0) + w.getD (l - 7) 0 +
        smallSigma0 (w.getD (l - 15) 0) + w.getD (l - 16) 0) % 2 ^ 64
      w ++ [wNew]) ws

/-- One round of the SHA-512 compression function; the state is the word list
[a, b, c, d, e, f, g, h], and `kw` is the sum of round constant and message
word. -/
def shaRound (st : List Nat) (kw : Nat) : List Nat :=
  let a := st.getD 0 0
  let b := st.getD 1 0
  let c := st.getD 2 0
  let d := st.getD 3 0
  let e := st.getD 4 0
  let f := st.getD 5 0
  let g := st.getD 6 0
  let h := st.getD 7 0
  let t1 := (h + bigSigma1 e + shaCh e f g + kw) % 2 ^ 64
  let t2 := (bigSigma0 a + shaMaj a b c) % 2 ^ 64
  [(t1 + t2) % 2 ^ 64, a, b, c, (d + t1) % 2 ^ 64, e, f, g]

/-- SHA-512 compression of one 128-byte block into the running hash state. -/
def shaCompress (h : List Nat) (block : List Nat) : List Nat :=
  let w := shaSchedule (chunkWords block.length block)
  let kw := List.zipWith (fun k wi => (k + wi) % 2 ^ 64) shaK w
  let st := kw.foldl shaRound h
  List.zipWith (fun x y => (x + y) % 2 ^ 64) h st

/-- SHA-512 padding: one 0x80 byte, zeros, and the 128-bit big-endian bit
length, to a multiple of 128 bytes. -/
def shaPad (msg : List Nat) : List Nat :=
  msg ++ [0x80] ++ List.replicate ((239 - msg.length % 128) % 128) 0 ++
    beBytes 16 (8 * msg.length)

/-- SHA-512/256 digest of a byte list: SHA-512 with the truncated IV, output
truncated to the first 256 bits. -/
def sha512_256 (msg : List Nat) : List Nat :=
  let padded := shaPad msg
  let final := (chunkBlocks padded.length padded).foldl shaCompress shaIV
  (final.take 4).foldr (fun w acc => beBytes 8 w ++ acc) []

/-- Hash.digest_bytes from the runtime sources: the 32-byte SHA-512/256
digest of the input. -/
def Hash.digest_bytes (bs : List Nat) : List Nat := sha512_256 bs

/-- Hash.empty_hash: the digest of the empty byte string. -/
def Hash.empty_hash : List Nat := sha512_256 []

/-! ## Canonical CBOR maps for serde structures

Rust structures are serialized by serde as CBOR maps from field-name text
strings to field values; canonical encoding orders the keys by encoded length
first and bytewise second (RFC 7049 section 3.9). -/

/-- UTF-8 bytes of an ASCII field name. -/
def strBytes (s : String) : List Nat := s.toList.map Char.toNat

/-- Lexicographic (bytewise) comparison of byte lists. -/
def lexLe : List Nat → List Nat → Bool
  | [], _ => true
  | _ :: _, [] => false
  | a :: as, b :: bs => if a < b then true else if b < a then false else lexLe as bs

/-- Canonical CBOR key order: shorter keys first, then bytewise. -/
def keyLe (a b : List Nat) : Bool :=
  if a.length < b.length then true
  else if b.length < a.length then false
  else lexLe a b

def insertKey (p : List Nat × Cbor) : List (List Nat × Cbor) → List (List Nat × Cbor)
  | [] => [p]
  | q :: qs => if keyLe p.1 q.1 then p :: q :: qs else q :: insertKey p qs

def sortKeys : List (List Nat × Cbor) → List (List Nat × Cbor)
  | [] => []
  | p :: ps => insertKey p (sortKeys ps)

/-- A CBOR map with text keys in canonical order. -/
def canonicalMap (kvs : List (List Nat × Cbor)) : Cbor :=
  .map ((sortKeys kvs).map (fun p => (.text p.1, p.2)))

/-! ## Roothash structures (src/runtime/src/consensus/roothash.rs) -/

/-- Header type enum; the default is Invalid. -/
inductive HeaderType where
  | invalid
  | normal
  | roundFailed
  | epochTransition
  | suspended
  deriving Repr, DecidableEq

/-- Discriminants, as serialized by serde_repr. -/
def HeaderType.toNat : HeaderType → Nat
  | .invalid => 0
  | .normal => 1
  | .roundFailed => 2
  | .epochTransition => 3
  | .suspended => 4

/-- Runtime block header.  The 32-byte Hash and Namespace fields are byte
lists; storage receipt signature bundles are represented by their CBOR
encodings (their own layout is outside the scope of the claims). -/
structure Header where
  version : Nat
  «namespace» : List Nat
  round : Nat
  timestamp : Nat
  header_type : HeaderType
  previous_hash : List Nat
  io_root : List Nat
  state_root : List Nat
  messages_hash : List Nat
  storage_signatures : Option (List Cbor)

/-- Rust Default for Header: zero scalars, all-zero 32-byte hashes, Invalid
header type, no storage signatures. -/
def Header.default : Header where
  version := 0
  «namespace» := List.replicate 32 0
  round := 0
  timestamp := 0
  header_type := .invalid
  previous_hash := List.replicate 32 0
  io_root := List.replicate 32 0
  state_root := List.replicate 32 0
  messages_hash := List.replicate 32 0
  storage_signatures := none

/-- Serde image of a Header: a CBOR map over all fields (the Option field has
no skip attribute, so None serializes as null). -/
def Header.toCbor (h : Header) : Cbor :=
  canonicalMap [
    (strBytes "version", .uint h.version),
    (strBytes "namespace", .bytes h.«namespace»),
    (strBytes "round", .uint h.round),
    (strBytes "timestamp", .uint h.timestamp),
    (strBytes "header_type", .uint h.header_type.toNat),
    (strBytes "previous_hash", .bytes h.previous_hash),
    (strBytes "io_root", .bytes h.io_root),
    (strBytes "state_root", .bytes h.state_root),
    (strBytes "messages_hash", .bytes h.messages_hash),
    (strBytes "storage_signatures",
      match h.storage_signatures with
      | none => .null
      | some xs => .arr xs)]

/-- Header::encoded_hash: hash of the canonical CBOR encoding. -/
def Header.encoded_hash (h : Header) : List Nat :=
  Hash.digest_bytes h.toCbor.encode

/-- The header of a computed batch; optional fields are omitted from the
encoding when None (skip_serializing_if). -/
structure ComputeResultsHeader where
  round : Nat
  previous_hash : List Nat
  io_root : Option (List Nat)
  state_root : Option (List Nat)
  messages_hash : Option (List Nat)

def ComputeResultsHeader.default : ComputeResultsHeader where
  round := 0
  previous_hash := List.replicate 32 0
  io_root := none
  state_root := none
  messages_hash := none

/-- Optional field contribution to a serde map: omitted when None. -/
def optField (name : String) (v : Option (List Nat)) : List (List Nat × Cbor) :=
  match v with
  | none => []
  | some h => [(strBytes name, .bytes h)]

/-- Serde image of a ComputeResultsHeader. -/
def ComputeResultsHeader.toCbor (h : ComputeResultsHeader) : Cbor :=
  canonicalMap ([
    (strBytes "round", .uint h.round),
    (strBytes "previous_hash", .bytes h.previous_hash)] ++
    optField "io_root" h.io_root ++
    optField "state_root" h.state_root ++
    optField "messages_hash" h.messages_hash)

/-- ComputeResultsHeader::encoded_hash. -/
def ComputeResultsHeader.encoded_hash (h : ComputeResultsHeader) : List Nat :=
  Hash.digest_bytes h.toCbor.encode

/-- Message::messages_hash: the empty message list hashes to the hash of the
empty byte string; otherwise the CBOR encoding of the list is hashed.
Individual runtime messages are represented by their CBOR images (the layout
of the staking and registry payloads is outside the scope of the claims). -/
def Message.messages_hash (msgs : List Cbor) : List Nat :=
  if msgs.isEmpty then Hash.empty_hash
  else Hash.digest_bytes (Cbor.arr msgs).encode

/-! ## Worker-host protocol framing (src/runtime/src/protocol.rs) -/

/-- Maximum message size: 100 MiB. -/
def MAX_MESSAGE_SIZE : Nat := 104857600

/-- ProtocolError from protocol.rs. -/
inductive ProtocolError where
  | messageTooLarge
  | methodNotSupported
  | invalidResponse
  | attestationRequired
  deriving Repr, DecidableEq

/-- Display strings of ProtocolError (the fail attribute messages). -/
def ProtocolError.display : ProtocolError → String
  | .messageTooLarge => "message too large"
  | .methodNotSupported => "method not supported"
  | .invalidResponse => "invalid response"
  | .attestationRequired => "attestation required"

/-- Message type tags: Request = 1, Response = 2, KeepAlive = 3. -/
inductive MessageType where
  | request
  | response
  | keepAlive
  deriving Repr, DecidableEq

def MessageType.toNat : MessageType → Nat
  | .request => 1
  | .response => 2
  | .keepAlive => 3

def MessageType.fromNat : Nat → Option MessageType
  | 1 => some .request
  | 2 => some .response
  | 3 => some .keepAlive
  | _ => none

/-- The worker-host protocol message envelope.  The body is carried as its
CBOR image: the framing layer passes bodies through serde untouched, so the
frame codec is body-agnostic. -/
structure PMessage where
  id : Nat
  message_type : MessageType
  span_context : List Nat
  body : Cbor

/-- Well-formed envelope: 64-bit id, byte-valued span context, well-formed
body. -/
def PMessage.wfB (m : PMessage) : Bool :=
  decide (m.id < 2 ^ 64) && decide (m.span_context.length < 2 ^ 64) &&
    m.span_context.all (· < 256) && m.body.wf

/-- Serde image of a Message: a canonical CBOR map over its four fields. -/
def PMessage.toCbor (m : PMessage) : Cbor :=
  canonicalMap [
    (strBytes "id", .uint m.id),
    (strBytes "message_type", .uint m.message_type.toNat),
    (strBytes "span_context", .bytes m.span_context),
    (strBytes "body", m.body)]

/-- Deserialization of a Message from its CBOR image (canonical key order:
id, body, message_type, span_context). -/
def PMessage.fromCbor : Cbor → Option PMessage
  | .map [(.text k1, .uint i), (.text k2, b), (.text k3, .uint mt), (.text k4, .bytes sc)] =>
    if k1 = strBytes "id" ∧ k2 = strBytes "body" ∧ k3 = strBytes "message_type" ∧
        k4 = strBytes "span_context" then
      match MessageType.fromNat mt with
      | some t => some { id := i, message_type := t, span_context := sc, body := b }
      | none => none
    else none
  | _ => none

/-- Protocol::encode_message: serializes the message, refuses frames above
MAX_MESSAGE_SIZE, and emits a big-endian u32 length followed by the payload. -/
def Protocol.encode_message (m : PMessage) : Except ProtocolError (List Nat) :=
  let buffer := m.toCbor.encode
  if buffer.length > MAX_MESSAGE_SIZE then .error .messageTooLarge
  else .ok (beBytes 4 buffer.length ++ buffer)

/-- Frame-level decode failures.  ioError stands for the read of the length
or payload hitting the end of the stream; codec for a cbor::from_slice
failure. -/
inductive DecodeError where
  | protocol (e : ProtocolError)
  | ioError
  | codec
  deriving Repr, DecidableEq

/-- Protocol::decode_message over an explicit input stream: reads the 4-byte
big-endian length, rejects lengths above MAX_MESSAGE_SIZE before touching the
payload, then reads and deserializes the payload.  Returns the result and the
unconsumed remainder of the stream. -/
def Protocol.decode_message (input : List Nat) :
    Except DecodeError PMessage × List Nat :=
  if 4 ≤ input.length then
    if fromBe (input.take 4) > MAX_MESSAGE_SIZE then
      (.error (.protocol .messageTooLarge), input.drop 4)
    else if fromBe (input.take 4) ≤ (input.drop 4).length then
      match cborFromSlice ((input.drop 4).take (fromBe (input.take 4))) with
      | some v =>
        match PMessage.fromCbor v with
        | some m => (.ok m, (input.drop 4).drop (fromBe (input.take 4)))
        | none => (.error .codec, (input.drop 4).drop (fromBe (input.take 4)))
      | none => (.error .codec, (input.drop 4).drop (fromBe (input.take 4)))
    else (.error .ioError, [])
  else (.error .ioError, [])

/-! ## Worker-host protocol handler (src/runtime/src/protocol.rs, SGX build)

The handler state machine models the SGX build: the cfg(target_env = "sgx")
branches of handle_request are active and can_handle_runtime_requests
consults the RAK AVR slot. -/

/-- An attestation verification report.  RAK::set_avr is not among the
sources; modelled from the spec: the AVR is verified against the RAK binding
and stored on success ("Bind AVR to RAK; enables runtime requests"), so the
model carries the verification verdict in the value. -/
structure Avr where
  body : List Nat
  valid : Bool
  deriving Repr, DecidableEq

/-- Runtime attestation key state held by the protocol handler. -/
structure RakState where
  rak_pub : List Nat
  report : List Nat
  nonce : List Nat
  avr : Option Avr
  deriving Repr, DecidableEq

/-- RAK::set_avr, modelled from the spec: verification failure is an error,
success binds the AVR. -/
def RAK.set_avr (rak : RakState) (avr : Avr) : Except String RakState :=
  if avr.valid then .ok { rak with avr := some avr }
  else .error "AVR verification failed"

/-- Request bodies distinguished by Protocol::handle_request.  Payloads that
handle_request does not inspect are carried as CBOR images; bodies that only
ever occur in responses fall under otherBody and hit the unsupported arm. -/
inductive ReqBody where
  | workerInfoRequest
  | workerPingRequest
  | workerShutdownRequest
  | workerAbortRequest
  | workerCapabilityTEERakInitRequest (payload : Cbor)
  | workerCapabilityTEERakReportRequest
  | workerCapabilityTEERakAvrRequest (avr : Avr)
  | workerRPCCallRequest (request : List Nat)
  | workerLocalRPCCallRequest (request : List Nat)
  | workerCheckTxBatchRequest (payload : Cbor)
  | workerExecuteTxBatchRequest (payload : Cbor)
  | errorBody (message : String)
  | otherBody (v : Cbor)

/-- The four runtime request kinds gated by can_handle_runtime_requests. -/
def ReqBody.isRuntimeRequest : ReqBody → Bool
  | .workerRPCCallRequest _ => true
  | .workerLocalRPCCallRequest _ => true
  | .workerCheckTxBatchRequest _ => true
  | .workerExecuteTxBatchRequest _ => true
  | _ => false

/-- Response bodies produced directly by handle_request. -/
inductive RespBody where
  | workerInfoResponse (protocol_version runtime_version : Nat)
  | empty
  | workerCapabilityTEERakReportResponse (rak_pub report nonce : List Nat)
  | workerCapabilityTEERakAvrResponse

/-- Errors a request handler can produce. -/
inductive HandlerError where
  | protocol (e : ProtocolError)
  | avr (message : String)
  deriving Repr, DecidableEq

/-- Protocol handler state: the RAK, the dispatcher queue, the pending
outgoing request map (request id to the waiting channel token), the outgoing
id counter and the version numbers reported by WorkerInfoResponse. -/
structure ProtocolState where
  rak : RakState
  dispatcher_queue : List (Nat × ReqBody)
  pending_out_requests : List (Nat × Nat)
  last_request_id : Nat
  build_protocol_version : Nat
  runtime_version : Nat

/-- Protocol::can_handle_runtime_requests (SGX build): an error unless an AVR
is bound to the RAK. -/
def Protocol.can_handle_runtime_requests (st : ProtocolState) :
    Except ProtocolError Unit :=
  match st.rak.avr with
  | none => .error .attestationRequired
  | some _ => .ok ()

/-- Protocol::handle_request (SGX build).  Returns the successor state (the
dispatcher queue grows when a request is queued; the RAK changes when an AVR
is bound) and the handler verdict: `ok (some b)` replies with b, `ok none`
defers the reply to the dispatcher, errors are sent back as Error bodies.
Dispatcher::queue_request is modelled as the enqueue itself. -/
def Protocol.handle_request (st : ProtocolState) (id : Nat) (req : ReqBody) :
    ProtocolState × Except HandlerError (Option RespBody) :=
  match req with
  | .workerInfoRequest =>
    (st, .ok (some (.workerInfoResponse st.build_protocol_version st.runtime_version)))
  | .workerPingRequest => (st, .ok (some .empty))
  | .workerShutdownRequest => (st, .error (.protocol .methodNotSupported))
  | .workerAbortRequest => (st, .error (.protocol .methodNotSupported))
  | .workerCapabilityTEERakInitRequest p =>
    ({ st with dispatcher_queue :=
        st.dispatcher_queue ++ [(id, .workerCapabilityTEERakInitRequest p)] },
      .ok none)
  | .workerCapabilityTEERakReportRequest =>
    (st, .ok (some (.workerCapabilityTEERakReportResponse
      st.rak.rak_pub st.rak.report st.rak.nonce)))
  | .workerCapabilityTEERakAvrRequest avr =>
    match RAK.set_avr st.rak avr with
    | .ok rak' => ({ st with rak := rak' }, .ok (some .workerCapabilityTEERakAvrResponse))
    | .error e => (st, .error (.avr e))
  | .workerRPCCallRequest r =>
    match Protocol.can_handle_runtime_requests st with
    | .error e => (st, .error (.protocol e))
    | .ok () =>
      ({ st with dispatcher_queue := st.dispatcher_queue ++ [(id, .workerRPCCallRequest r)] },
        .ok none)
  | .workerLocalRPCCallRequest r =>
    match Protocol.can_handle_runtime_requests st with
    | .error e => (st, .error (.protocol e))
    | .ok () =>
      ({ st with dispatcher_queue :=
          st.dispatcher_queue ++ [(id, .workerLocalRPCCallRequest r)] },
        .ok none)
  | .workerCheckTxBatchRequest p =>
    match Protocol.can_handle_runtime_requests st with
    | .error e => (st, .error (.protocol e))
    | .ok () =>
      ({ st with dispatcher_queue :=
          st.dispatcher_queue ++ [(id, .workerCheckTxBatchRequest p)] },
        .ok none)
  | .workerExecuteTxBatchRequest p =>
    match Protocol.can_handle_runtime_requests st with
    | .error e => (st, .error (.protocol e))
    | .ok () =>
      ({ st with dispatcher_queue :=
          st.dispatcher_queue ++ [(id, .workerExecuteTxBatchRequest p)] },
        .ok none)
  | .errorBody _ => (st, .error (.protocol .methodNotSupported))
  | .otherBody _ => (st, .error (.protocol .methodNotSupported))

/-- Protocol::make_request: allocates the next outgoing id (fetch_add on the
counter, cast to u64), registers the response channel under it and writes the
request frame.  The model returns the allocated id; `waiter` is the token of
the channel the caller blocks on. -/
def Protocol.make_request (st : ProtocolState) (waiter : Nat) : ProtocolState × Nat :=
  let id := st.last_request_id % 2 ^ 64
  ({ st with
      last_request_id := st.last_request_id + 1,
      pending_out_requests := st.pending_out_requests ++ [(id, waiter)] }, id)

/-- The Response arm of Protocol::handle_message: pop the pending entry for
the id and deliver the body to that waiter; an unknown id is logged and
dropped. -/
def Protocol.handle_response (st : ProtocolState) (rid : Nat) (body : ReqBody) :
    ProtocolState × Option (Nat × ReqBody) :=
  match st.pending_out_requests.lookup rid with
  | some w =>
    ({ st with pending_out_requests :=
        st.pending_out_requests.eraseP (fun p => p.1 == rid) },
      some (w, body))
  | none => (st, none)

/-- Sequential processing of a list of Response messages by the reader loop;
returns the final state and the deliveries as (request id, waiter, body). -/
def Protocol.processResponses (st : ProtocolState) :
    List (Nat × ReqBody) → ProtocolState × List (Nat × Nat × ReqBody)
  | [] => (st, [])
  | (rid, body) :: rest =>
    let step := Protocol.handle_response st rid body
    let next := Protocol.processResponses step.1 rest
    (next.1,
      (match step.2 with | some (w, b) => [(rid, w, b)] | none => []) ++ next.2)

/-- A body written back to the host: a response body or an Error body whose
message is the display of the handler error. -/
inductive SentBody where
  | resp (b : RespBody)
  | errMessage (message : String)

/-- Display string of a handler error, as formatted into an Error body. -/
def HandlerError.display : HandlerError → String
  | .protocol e => e.display
  | .avr m => m

/-- A decoded message as seen by the dispatch in handle_message: the body of
a Request is a ReqBody; Response bodies are delivered opaquely and reuse the
same carrier. -/
structure ProtoMsg where
  id : Nat
  message_type : MessageType
  body : ReqBody

/-- Effects of one handle_message iteration: responses written back to the
host and at most one body delivered to a local waiter. -/
structure StepEffects where
  sent : List (Nat × SentBody)
  delivered : Option (Nat × ReqBody)

/-- The dispatch of Protocol::handle_message on a decoded message.  Request
bodies go through handle_request (errors become Error replies); Response
bodies are matched against the pending map; any other message type is logged
as malformed and ignored.  The ok result means the receive loop continues;
write failures are I/O-level and outside the state model, so no error is
produced here: the loop is closed by decode failures (see
Protocol.decode_message). -/
def Protocol.handle_decoded (st : ProtocolState) (msg : ProtoMsg) :
    Except DecodeError (ProtocolState × StepEffects) :=
  match msg.message_type with
  | .request =>
    match Protocol.handle_request st msg.id msg.body with
    | (st', .ok (some b)) => .ok (st', ⟨[(msg.id, .resp b)], none⟩)
    | (st', .ok none) => .ok (st', ⟨[], none⟩)
    | (st', .error e) => .ok (st', ⟨[(msg.id, .errMessage e.display)], none⟩)
  | .response =>
    match Protocol.handle_response st msg.id msg.body with
    | (st', d) => .ok (st', ⟨[], d⟩)
  | .keepAlive => .ok (st, ⟨[], none⟩)

/-- One iteration of the receive loop in Protocol::start: continue on ok,
terminate on error. -/
inductive LoopStep where
  | continues (st : ProtocolState) (effects : StepEffects)
  | terminated (e : DecodeError)

/-- The loop body of Protocol::start applied to one decoded message: the loop
breaks exactly when handle_message returns an error. -/
def Protocol.loop_step (st : ProtocolState) (msg : ProtoMsg) : LoopStep :=
  match Protocol.handle_decoded st msg with
  | .ok (st', eff) => .continues st' eff
  | .error e => .terminated e

/-! ## Batch executor (src/compute/src/worker.rs) -/

/-- A storage insert buffered during a batch execution: the value and its
expiry epoch (the key is the content hash of the value). -/
structure Insert where
  value : List Nat
  expiry : Nat
  deriving Repr, DecidableEq

/-- InsertOptions from ekiden_storage_base: a local_only commit stays out of
the durable backend. -/
structure InsertOptions where
  local_only : Bool
  deriving Repr, DecidableEq

/-- A batch storage wrapping the durable backend: buffered writes against the
backend contents.  BatchStorageBackend itself is not among the sources (only
its crate root is); commit is modelled from the spec: "commit(signature
local_only) writes all buffered pairs to the backend (if local_only=false) in
one pass; local-only commits keep the buffer but mark it non-durable". -/
structure BatchStorage where
  backend : List Insert
  buffer : List Insert
  deriving Repr, DecidableEq

/-- BatchStorageBackend::commit, modelled from the spec (see BatchStorage). -/
def BatchStorage.commit (bs : BatchStorage) (opts : InsertOptions) : BatchStorage :=
  if opts.local_only then bs
  else { bs with backend := bs.backend ++ bs.buffer }

/-- The result of running the enclave batch call inside the storage context.
EnclaveDb::with_storage and EnclaveContract::contract_call_batch are not
among the sources; per the caller in worker.rs, with_storage returns
`Result<(new_state_root, Result<OutputBatch>)>`: the outer result is the
storage-context outcome (checked by the question mark right after the call),
the inner result is the contract_call_batch outcome (checked only at the end
of call_contract_batch_fallible).  `writes` are the inserts the execution
buffered in the batch storage. -/
structure EnclaveBatchResult where
  result : Except String (List Nat × Except String (List (List Nat)))
  writes : List Insert

/-- Block as used by the compute worker; only the header state root feeds the
embedded control flow. -/
structure WBlock where
  state_root : List Nat
  deriving Repr, DecidableEq

/-- ComputedBatch from src/compute/src/worker.rs. -/
structure WComputedBatch where
  block : WBlock
  calls : List (List Nat)
  outputs : List (List Nat)
  new_state_root : List Nat
  deriving Repr, DecidableEq

/-- WorkerInner::call_contract_batch_fallible: builds the batch storage over
the shared backend, runs the enclave call in the storage context (outer error
aborts before any commit), commits the batch storage with
local_only = !commit_storage, and only then checks the outputs result.
Returns the call outcome and the durable backend contents afterwards. -/
def call_contract_batch_fallible (backend : List Insert) (enclave : EnclaveBatchResult)
    (commit_storage : Bool) :
    Except String (List (List Nat) × List Nat) × List Insert :=
  match enclave.result with
  | .error e => (.error e, backend)
  | .ok (new_state_root, outputs) =>
    let committed := BatchStorage.commit ⟨backend, enclave.writes⟩ ⟨!commit_storage⟩
    match outputs with
    | .error e => (.error e, committed.backend)
    | .ok outs => (.ok (outs, new_state_root), committed.backend)

/-- WorkerInner::handle_contract_batch: runs the fallible call and sends the
ComputedBatch on success or the batch-wide error to the response sender. -/
def handle_contract_batch (backend : List Insert) (calls : List (List Nat)) (block : WBlock)
    (enclave : EnclaveBatchResult) (commit_storage : Bool) :
    Except String WComputedBatch × List Insert :=
  match call_contract_batch_fallible backend enclave commit_storage with
  | (.ok (outputs, new_state_root), backend') =>
    (.ok { block := block, calls := calls, outputs := outputs,
           new_state_root := new_state_root }, backend')
  | (.error e, backend') => (.error e, backend')

/-! ## Runtime client manager (src/runtime/client/src/manager.rs) -/

/-- The distinguished shutdown reason raised on an epoch transition.
RuntimeClient and its SHUTDOWN_REASON_TRANSITION constant are not among the
sources; the spec names the condition TransitionShutdown, and the manager
compares error messages against the constant, so it is modelled as a
distinguished message string. -/
def SHUTDOWN_REASON_TRANSITION : String := "transition shutdown"

/-- An error as compared by the retry predicate: only the message matters. -/
structure MError where
  message : String
  deriving Repr, DecidableEq

/-- retry_until_ok_or_max from ekiden_common::futures is not among the
sources; modelled from the spec: "attempt, classify error, optionally retry
up to K times"; `not_retriable` marks errors that must surface immediately,
`retries_left` bounds the retries.  `attempts i` is the outcome of the i-th
call_leader attempt; the pair also returns how many attempts were made, with
`i` attempts already made when entering. -/
def retryGo (attempts : Nat → Except MError α) (not_retriable : MError → Bool) :
    Nat → Nat → Except MError α × Nat
  | retries_left, i =>
    match attempts i with
    | .ok a => (.ok a, i + 1)
    | .error e =>
      if not_retriable e then (.error e, i + 1)
      else
        match retries_left with
        | 0 => (.error e, i + 1)
        | r + 1 => retryGo attempts not_retriable r (i + 1)

def retry_until_ok_or_max (attempts : Nat → Except MError α)
    (not_retriable : MError → Bool) (max_retries : Nat) : Except MError α × Nat :=
  retryGo attempts not_retriable max_retries 0

/-- RuntimeClientManager::call: retry call_leader, treating only errors whose
message equals SHUTDOWN_REASON_TRANSITION as retriable, with one retry.  The
call_leader dispatch (current leader, or awaiting the first one) is
abstracted into the attempts function. -/
def RuntimeClientManager.call (attempts : Nat → Except MError α) :
    Except MError α × Nat :=
  retry_until_ok_or_max attempts
    (fun e => e.message != SHUTDOWN_REASON_TRANSITION) 1

/-- Scheduler committee node roles. -/
inductive Role where
  | worker
  | backupWorker
  | leader
  deriving Repr, DecidableEq

/-- Committee kinds. -/
inductive CommitteeType where
  | compute
  | storage
  deriving Repr, DecidableEq

/-- A committee member: node public key and role. -/
structure CommitteeNode where
  public_key : Nat
  role : Role
  deriving Repr, DecidableEq

/-- A committee, filtered by the manager on runtime id and Compute kind.
The scheduler types are not among the sources; the shape follows the spec
data model. -/
structure Committee where
  kind : CommitteeType
  runtime_id : Nat
  members : List CommitteeNode
  valid_for : Nat
  deriving Repr, DecidableEq

/-- The installed computation group leader: node id and the client built for
it. -/
structure MLeader where
  node_id : Nat
  client_id : Nat
  deriving Repr, DecidableEq

/-- Manager state: the leader slot, a counter naming constructed clients and
whether the first-leader future has fired. -/
structure MgrState where
  leader : Option MLeader
  next_client_id : Nat
  notified_first : Bool
  deriving Repr, DecidableEq

/-- Observable actions of the committee follower. -/
inductive MgrEvent where
  | clientConstructed (node_id client_id : Nat)
  | leaderNotify (client_id : Nat)
  | shutdownTransition (client_id : Nat)
  deriving Repr, DecidableEq

/-- The for_each body of RuntimeClientManager::start on one committee update:
take the first member with the Leader role (an error if none), keep the
current leader when the id is unchanged, otherwise construct a client to the
new leader, notify first-leader waiters or shut the previous client down with
the transition reason, and install the new leader. -/
def RuntimeClientManager.handle_committee (st : MgrState) (c : Committee) :
    Except MError (MgrState × List MgrEvent) :=
  match (c.members.find? (fun m => m.role == Role.leader)).map
      (fun m => m.public_key) with
  | none => .error { message := "missing committee leader" }
  | some new_leader =>
    match st.leader with
    | some prev =>
      if prev.node_id = new_leader then .ok (st, [])
      else
        .ok ({ leader := some { node_id := new_leader, client_id := st.next_client_id },
               next_client_id := st.next_client_id + 1,
               notified_first := st.notified_first },
          [.clientConstructed new_leader st.next_client_id,
           .shutdownTransition prev.client_id])
    | none =>
      .ok ({ leader := some { node_id := new_leader, client_id := st.next_client_id },
             next_client_id := st.next_client_id + 1,
             notified_first := true },
        [.clientConstructed new_leader st.next_client_id,
         .leaderNotify st.next_client_id])

/-- Outcome of the committee follower task. -/
inductive FollowerOutcome where
  | waiting (st : MgrState)
  | exited (code : Nat) (st : MgrState)
  deriving Repr, DecidableEq

/-- The committee follower spawned by RuntimeClientManager::start: committee
updates are filtered on the runtime id and the Compute kind, each surviving
update goes through handle_committee, and the first error reaches the final
then-branch, which logs and calls process::exit(1).  (Stream resubscription
inside streamfollow::follow_skip applies to errors of the stream itself, not
to errors returned by the for_each body, which end the for_each future.) -/
def RuntimeClientManager.run_follower (rid : Nat) (st : MgrState) :
    List Committee → FollowerOutcome
  | [] => .waiting st
  | c :: cs =>
    if c.runtime_id = rid ∧ c.kind = CommitteeType.compute then
      match RuntimeClientManager.handle_committee st c with
      | .error _ => .exited 1 st
      | .ok (st', _) => RuntimeClientManager.run_follower rid st' cs
    else RuntimeClientManager.run_follower rid st cs

/-! ## Node protobuf conversion (src/common/src/node.rs) -/

/-- TEE hardware kinds. -/
inductive TEEHardware where
  | invalid
  | intelSGX
  deriving Repr, DecidableEq

/-- Node TEE capability. -/
structure CapabilityTEE where
  hardware : TEEHardware
  rak : List Nat
  attestation : List Nat
  deriving Repr, DecidableEq

/-- Node capabilities. -/
structure Capabilities where
  tee : Option CapabilityTEE
  deriving Repr, DecidableEq

/-- A runtime supported by a node. -/
structure NodeRuntime where
  id : List Nat
  capabilities : Capabilities
  deriving Repr, DecidableEq

/-- A node.  B256 and H160 values are byte lists (32 and 20 bytes);
addresses and the TLS certificate are carried as their wire bytes, their own
conversions being outside the sources and modelled as faithful. -/
structure Node where
  id : List Nat
  eth_address : Option (List Nat)
  entity_id : List Nat
  expiration : Nat
  addresses : List (List Nat)
  certificate : List Nat
  registration_time : Nat
  runtimes : List NodeRuntime
  deriving Repr, DecidableEq

/-- The protobuf api::Node message: bytes fields default to empty when
unset. -/
structure ApiNode where
  id : List Nat
  eth_address : List Nat
  entity_id : List Nat
  expiration : Nat
  addresses : List (List Nat)
  certificate : List Nat
  registration_time : Nat
  deriving Repr, DecidableEq

/-- B256::try_from: accepts exactly 32 bytes. -/
def B256.try_from (bs : List Nat) : Except String (List Nat) :=
  if bs.length = 32 then .ok bs else .error "invalid B256 length"

/-- H160::try_from: accepts exactly 20 bytes. -/
def H160.try_from (bs : List Nat) : Except String (List Nat) :=
  if bs.length = 20 then .ok bs else .error "invalid H160 length"

/-- Into api::Node for Node: every field is copied except runtimes, which
the conversion does not serialize at all; an absent eth_address leaves the
protobuf field unset (empty bytes). -/
def Node.into_api (n : Node) : ApiNode where
  id := n.id
  eth_address := match n.eth_address with | some a => a | none => []
  entity_id := n.entity_id
  expiration := n.expiration
  addresses := n.addresses
  certificate := n.certificate
  registration_time := n.registration_time

/-- TryFrom api::Node for Node: addresses convert one by one, a malformed
eth_address degrades to None, id and entity_id must be 32 bytes, and the
runtimes list is hard-coded empty (the XXX in the source). -/
def Node.try_from (a : ApiNode) : Except String Node := do
  let id ← B256.try_from a.id
  let entity_id ← B256.try_from a.entity_id
  let eth_address :=
    match H160.try_from a.eth_address with
    | .ok addr => some addr
    | .error _ => none
  .ok { id := id
        eth_address := eth_address
        entity_id := entity_id
        expiration := a.expiration
        addresses := a.addresses
        certificate := a.certificate
        registration_time := a.registration_time
        runtimes := [] }

/-! ## Theorems: codec correctness -/

theorem beBytes_length (k n : Nat) : (beBytes k n).length = k := by
  induction k generalizing n with
  | zero => rfl
  | succ k ih => simp [beBytes, ih]

theorem fromBe_append_singleton (bs : List Nat) (b : Nat) :
    fromBe (bs ++ [b]) = fromBe bs * 256 + b := by
  simp [fromBe, List.foldl_append]

theorem fromBe_beBytes (k n : Nat) : fromBe (beBytes k n) = n % 256 ^ k := by
  induction k generalizing n with
  | zero => simp [beBytes, fromBe, Nat.mod_one]
  | succ k ih =>
    rw [beBytes, fromBe_append_singleton, ih]
    have h256 : (256 : Nat) ^ (k + 1) = 256 * 256 ^ k := by ring
    rw [h256, Nat.mod_mul]
    ring

theorem fromBe_beBytes_of_lt (k n : Nat) (h : n < 256 ^ k) :
    fromBe (beBytes k n) = n := by
  rw [fromBe_beBytes, Nat.mod_eq_of_lt h]


theorem decodeHead_encodeHead (major n : Nat) (rest : List Nat)
    (hn : n < 2 ^ 64) :
    decodeHead (encodeHead major n ++ rest) = some (major, n, rest) := by
  unfold encodeHead
  by_cases h24 : n < 24
  · simp only [if_pos h24, List.cons_append, List.nil_append, decodeHead]
    have hdiv : (major * 32 + n) / 32 = major := by omega
    have hmod : (major * 32 + n) % 32 = n := by omega
    simp [hdiv, hmod, h24]
  · simp only [if_neg h24]
    by_cases h256 : n < 256
    · simp only [if_pos h256, List.append_assoc, List.cons_append, List.nil_append, decodeHead]
      have hdiv : (major * 32 + 24) / 32 = major := by omega
      have hmod : (major * 32 + 24) % 32 = 24 := by omega
      rw [hdiv, hmod]
      simp only [show ¬(24 < 24) by omega, if_neg, if_pos (show 24 ≤ 27 by omega)]
      have hlen : 2 ^ (24 - 24) ≤ (beBytes 1 n ++ rest).length := by
        simp [beBytes_length]
      rw [if_pos hlen]
      have ht : (beBytes 1 n ++ rest).take (2 ^ (24 - 24)) = beBytes 1 n :=
        List.take_left' (by simp [beBytes_length])
      have hd : (beBytes 1 n ++ rest).drop (2 ^ (24 - 24)) = rest :=
        List.drop_left' (by simp [beBytes_length])
      rw [ht, hd, fromBe_beBytes_of_lt 1 n (by simpa using h256)]
      simp
    · simp only [if_neg h256]
      by_cases h65536 : n < 65536
      · simp only [if_pos h65536, List.append_assoc, List.cons_append, List.nil_append,
          decodeHead]
        have hdiv : (major * 32 + 25) / 32 = major := by omega
        have hmod : (major * 32 + 25) % 32 = 25 := by omega
        rw [hdiv, hmod]
        simp only [show ¬(25 < 24) by omega, if_neg, if_pos (show 25 ≤ 27 by omega)]
        have hlen : 2 ^ (25 - 24) ≤ (beBytes 2 n ++ rest).length := by
          simp [beBytes_length]
        rw [if_pos hlen]
        have ht : (beBytes 2 n ++ rest).take (2 ^ (25 - 24)) = beBytes 2 n :=
          List.take_left' (by simp [beBytes_length])
        have hd : (beBytes 2 n ++ rest).drop (2 ^ (25 - 24)) = rest :=
          List.drop_left' (by simp [beBytes_length])
        rw [ht, hd, fromBe_beBytes_of_lt 2 n (by norm_num; omega)]
        simp
      · simp only [if_neg h65536]
        by_cases h32 : n < 4294967296
        · simp only [if_pos h32, List.append_assoc, List.cons_append, List.nil_append,
            decodeHead]
          have hdiv : (major * 32 + 26) / 32 = major := by omega
          have hmod : (major * 32 + 26) % 32 = 26 := by omega
          rw [hdiv, hmod]
          simp only [show ¬(26 < 24) by omega, if_neg, if_pos (show 26 ≤ 27 by omega)]
          have hlen : 2 ^ (26 - 24) ≤ (beBytes 4 n ++ rest).length := by
            simp [beBytes_length]
          rw [if_pos hlen]
          have ht : (beBytes 4 n ++ rest).take (2 ^ (26 - 24)) = beBytes 4 n :=
            List.take_left' (by simp [beBytes_length])
          have hd : (beBytes 4 n ++ rest).drop (2 ^ (26 - 24)) = rest :=
            List.drop_left' (by simp [beBytes_length])
          rw [ht, hd, fromBe_beBytes_of_lt 4 n (by norm_num; omega)]
          simp
        · simp only [if_neg h32, List.append_assoc, List.cons_append, List.nil_append,
            decodeHead]
          have hdiv : (major * 32 + 27) / 32 = major := by omega
          have hmod : (major * 32 + 27) % 32 = 27 := by omega
          rw [hdiv, hmod]
          simp only [show ¬(27 < 24) by omega, if_neg, if_pos (show 27 ≤ 27 by omega)]
          have hlen : 2 ^ (27 - 24) ≤ (beBytes 8 n ++ rest).length := by
            simp [beBytes_length]
          rw [if_pos hlen]
          have ht : (beBytes 8 n ++ rest).take (2 ^ (27 - 24)) = beBytes 8 n :=
            List.take_left' (by simp [beBytes_length])
          have hd : (beBytes 8 n ++ rest).drop (2 ^ (27 - 24)) = rest :=
            List.drop_left' (by simp [beBytes_length])
          rw [ht, hd, fromBe_beBytes_of_lt 8 n (by norm_num; omega)]
          simp

theorem encodeHead_length_pos (major n : Nat) : 1 ≤ (encodeHead major n).length := by
  unfold encodeHead
  split
  · simp
  · split
    · simp
    · split
      · simp
      · split <;> simp [beBytes_length]

mutual

/-- Decoding is a left inverse of encoding: any well-formed CBOR item is
reconstructed from its canonical encoding, given enough fuel. -/
theorem decodeCbor_encode (v : Cbor) (fuel : Nat) (rest : List Nat)
    (hwf : v.wf = true) (hfuel : v.cost ≤ fuel) :
    decodeCbor fuel (v.encode ++ rest) = some (v, rest) := by
  cases v with
  | uint n =>
    obtain ⟨f, rfl⟩ : ∃ f, fuel = f + 1 :=
      ⟨fuel - 1, by simp [Cbor.cost] at hfuel; omega⟩
    have hn : n < 2 ^ 64 := by simpa [Cbor.wf] using hwf
    simp only [Cbor.encode, decodeCbor, decodeHead_encodeHead 0 n rest hn]
    simp
  | bytes b =>
    obtain ⟨f, rfl⟩ : ∃ f, fuel = f + 1 :=
      ⟨fuel - 1, by simp [Cbor.cost] at hfuel; omega⟩
    have hn : b.length < 2 ^ 64 := by
      simp [Cbor.wf] at hwf; exact hwf.1
    simp only [Cbor.encode, List.append_assoc, decodeCbor,
      decodeHead_encodeHead 2 b.length (b ++ rest) hn]
    have ht : (b ++ rest).take b.length = b := List.take_left' rfl
    have hd : (b ++ rest).drop b.length = rest := List.drop_left' rfl
    simp [ht, hd]
  | text s =>
    obtain ⟨f, rfl⟩ : ∃ f, fuel = f + 1 :=
      ⟨fuel - 1, by simp [Cbor.cost] at hfuel; omega⟩
    have hn : s.length < 2 ^ 64 := by
      simp [Cbor.wf] at hwf; exact hwf.1
    simp only [Cbor.encode, List.append_assoc, decodeCbor,
      decodeHead_encodeHead 3 s.length (s ++ rest) hn]
    have ht : (s ++ rest).take s.length = s := List.take_left' rfl
    have hd : (s ++ rest).drop s.length = rest := List.drop_left' rfl
    simp [ht, hd]
  | arr xs =>
    obtain ⟨f, rfl⟩ : ∃ f, fuel = f + 1 :=
      ⟨fuel - 1, by simp [Cbor.cost] at hfuel; omega⟩
    have hn : xs.length < 2 ^ 64 := by
      simp [Cbor.wf] at hwf; exact hwf.1
    have hwl : Cbor.wfList xs = true := by
      simp [Cbor.wf] at hwf; exact hwf.2
    have hfl : Cbor.costItems xs ≤ f := by
      simp [Cbor.cost] at hfuel; omega
    simp only [Cbor.encode, List.append_assoc, decodeCbor,
      decodeHead_encodeHead 4 xs.length (Cbor.encodeList xs ++ rest) hn]
    rw [decodeItems_encodeList xs f rest hwl hfl]
    simp
  | map kvs =>
    obtain ⟨f, rfl⟩ : ∃ f, fuel = f + 1 :=
      ⟨fuel - 1, by simp [Cbor.cost] at hfuel; omega⟩
    have hn : kvs.length < 2 ^ 64 := by
      simp [Cbor.wf] at hwf; exact hwf.1
    have hwl : Cbor.wfPairs kvs = true := by
      simp [Cbor.wf] at hwf; exact hwf.2
    have hfl : Cbor.costPairs kvs ≤ f := by
      simp [Cbor.cost] at hfuel; omega
    simp only [Cbor.encode, List.append_assoc, decodeCbor,
      decodeHead_encodeHead 5 kvs.length (Cbor.encodePairs kvs ++ rest) hn]
    rw [decodePairs_encodePairs kvs f rest hwl hfl]
    simp
  | null =>
    obtain ⟨f, rfl⟩ : ∃ f, fuel = f + 1 :=
      ⟨fuel - 1, by simp [Cbor.cost] at hfuel; omega⟩
    have henc : (Cbor.null).encode ++ rest = encodeHead 7 22 ++ rest := by
      simp [Cbor.encode, encodeHead]
    rw [henc]
    simp only [decodeCbor, decodeHead_encodeHead 7 22 rest (by norm_num)]
    simp

theorem decodeItems_encodeList (xs : List Cbor) (fuel : Nat) (rest : List Nat)
    (hwf : Cbor.wfList xs = true) (hfuel : Cbor.costItems xs ≤ fuel) :
    decodeItems fuel xs.length (Cbor.encodeList xs ++ rest) = some (xs, rest) := by
  cases xs with
  | nil => simp [Cbor.encodeList, decodeItems]
  | cons x xs =>
    obtain ⟨f, rfl⟩ : ∃ f, fuel = f + 1 :=
      ⟨fuel - 1, by simp [Cbor.costItems] at hfuel; omega⟩
    have hwx : x.wf = true := by
      simp [Cbor.wfList] at hwf; exact hwf.1
    have hwxs : Cbor.wfList xs = true := by
      simp [Cbor.wfList] at hwf; exact hwf.2
    have hfx : x.cost ≤ f := by
      simp [Cbor.costItems] at hfuel; omega
    have hfxs : Cbor.costItems xs ≤ f := by
      simp [Cbor.costItems] at hfuel; omega
    simp only [Cbor.encodeList, List.length_cons, List.append_assoc, decodeItems,
      decodeCbor_encode x f (Cbor.encodeList xs ++ rest) hwx hfx,
      decodeItems_encodeList xs f rest hwxs hfxs]

theorem decodePairs_encodePairs (kvs : List (Cbor × Cbor)) (fuel : Nat) (rest : List Nat)
    (hwf : Cbor.wfPairs kvs = true) (hfuel : Cbor.costPairs kvs ≤ fuel) :
    decodePairs fuel kvs.length (Cbor.encodePairs kvs ++ rest) = some (kvs, rest) := by
  cases kvs with
  | nil => simp [Cbor.encodePairs, decodePairs]
  | cons kv kvs =>
    obtain ⟨k, v⟩ := kv
    obtain ⟨f, rfl⟩ : ∃ f, fuel = f + 1 :=
      ⟨fuel - 1, by simp [Cbor.costPairs] at hfuel; omega⟩
    have hwk : k.wf = true := by
      simp [Cbor.wfPairs] at hwf; tauto
    have hwv : v.wf = true := by
      simp [Cbor.wfPairs] at hwf; tauto
    have hwkvs : Cbor.wfPairs kvs = true := by
      simp [Cbor.wfPairs] at hwf; tauto
    have hfk : k.cost ≤ f := by
      simp [Cbor.costPairs] at hfuel; omega
    have hfv : v.cost ≤ f := by
      simp [Cbor.costPairs] at hfuel; omega
    have hfkvs : Cbor.costPairs kvs ≤ f := by
      simp [Cbor.costPairs] at hfuel; omega
    simp only [Cbor.encodePairs, List.length_cons, List.append_assoc, decodePairs,
      decodeCbor_encode k f (v.encode ++ (Cbor.encodePairs kvs ++ rest)) hwk hfk,
      decodeCbor_encode v f (Cbor.encodePairs kvs ++ rest) hwv hfv,
      decodePairs_encodePairs kvs f rest hwkvs hfkvs]

end

mutual

/-- The decoder fuel an item needs is bounded by twice its encoding length. -/
theorem cost_lt_two_mul_encode (v : Cbor) : v.cost + 1 ≤ 2 * v.encode.length := by
  cases v with
  | uint n =>
    have := encodeHead_length_pos 0 n
    simp [Cbor.cost, Cbor.encode]; omega
  | bytes b =>
    have := encodeHead_length_pos 2 b.length
    simp [Cbor.cost, Cbor.encode]; omega
  | text s =>
    have := encodeHead_length_pos 3 s.length
    simp [Cbor.cost, Cbor.encode]; omega
  | arr xs =>
    have h1 := encodeHead_length_pos 4 xs.length
    have h2 := costItems_le_two_mul xs
    simp [Cbor.cost, Cbor.encode]; omega
  | map kvs =>
    have h1 := encodeHead_length_pos 5 kvs.length
    have h2 := costPairs_le_two_mul kvs
    simp [Cbor.cost, Cbor.encode]; omega
  | null => simp [Cbor.cost, Cbor.encode]

theorem costItems_le_two_mul (xs : List Cbor) :
    Cbor.costItems xs ≤ 2 * (Cbor.encodeList xs).length := by
  cases xs with
  | nil => simp [Cbor.costItems, Cbor.encodeList]
  | cons x xs =>
    have h1 := cost_lt_two_mul_encode x
    have h2 := costItems_le_two_mul xs
    have h3 : max x.cost (Cbor.costItems xs) ≤ x.cost + Cbor.costItems xs :=
      max_le (Nat.le_add_right _ _) (Nat.le_add_left _ _)
    simp [Cbor.costItems, Cbor.encodeList]; omega

theorem costPairs_le_two_mul (kvs : List (Cbor × Cbor)) :
    Cbor.costPairs kvs ≤ 2 * (Cbor.encodePairs kvs).length := by
  cases kvs with
  | nil => simp [Cbor.costPairs, Cbor.encodePairs]
  | cons kv kvs =>
    obtain ⟨k, v⟩ := kv
    have h1 := cost_lt_two_mul_encode k
    have h1' := cost_lt_two_mul_encode v
    have h2 := costPairs_le_two_mul kvs
    have h3 : max (max k.cost v.cost) (Cbor.costPairs kvs) ≤
        k.cost + v.cost + Cbor.costPairs kvs :=
      max_le (max_le (by omega) (by omega)) (by omega)
    simp [Cbor.costPairs, Cbor.encodePairs]; omega

end


theorem cborFromSlice_encode (v : Cbor) (hwf : v.wf = true) :
    cborFromSlice v.encode = some v := by
  unfold cborFromSlice
  have h := decodeCbor_encode v (2 * v.encode.length) [] hwf
    (by have := cost_lt_two_mul_encode v; omega)
  rw [List.append_nil] at h
  rw [h]

/-! ## Theorems: pending-request map -/

theorem lookup_eq_none_of_not_mem {α : Type} (k : Nat) (l : List (Nat × α))
    (h : k ∉ l.map Prod.fst) : l.lookup k = none := by
  induction l with
  | nil => rfl
  | cons p t ih =>
    obtain ⟨a, b⟩ := p
    simp only [List.map_cons, List.mem_cons] at h
    push_neg at h
    have hne : (k == a) = false := by simpa using h.1
    simp [List.lookup, hne, ih h.2]

theorem mem_keys_of_lookup {α : Type} {k : Nat} {w : α} {l : List (Nat × α)}
    (h : l.lookup k = some w) : k ∈ l.map Prod.fst := by
  induction l with
  | nil => simp [List.lookup] at h
  | cons p t ih =>
    obtain ⟨a, b⟩ := p
    by_cases hka : k = a
    · subst hka; simp
    · rw [List.lookup] at h
      rw [show (k == a) = false by simpa using hka] at h
      simp [ih h]

theorem lookup_eraseP_self {α : Type} (rid : Nat) (l : List (Nat × α))
    (hnd : (l.map Prod.fst).Nodup) :
    (l.eraseP (fun p => p.1 == rid)).lookup rid = none := by
  induction l with
  | nil => rfl
  | cons p t ih =>
    obtain ⟨a, b⟩ := p
    simp only [List.map_cons, List.nodup_cons] at hnd
    by_cases hak : a = rid
    · subst hak
      rw [List.eraseP_cons_of_pos (by simp)]
      exact lookup_eq_none_of_not_mem a t hnd.1
    · rw [List.eraseP_cons_of_neg (by simpa using hak)]
      rw [List.lookup]
      rw [show (rid == a) = false by simpa using fun h => hak h.symm]
      exact ih hnd.2

theorem lookup_of_lookup_eraseP {α : Type} (rid k : Nat) (w : α) (l : List (Nat × α))
    (hnd : (l.map Prod.fst).Nodup)
    (h : (l.eraseP (fun p => p.1 == rid)).lookup k = some w) :
    l.lookup k = some w := by
  induction l with
  | nil => simp [List.eraseP] at h
  | cons p t ih =>
    obtain ⟨a, b⟩ := p
    simp only [List.map_cons, List.nodup_cons] at hnd
    by_cases hak : a = rid
    · subst hak
      rw [List.eraseP_cons_of_pos (by simp)] at h
      by_cases hka : k = a
      · subst hka
        exact absurd (mem_keys_of_lookup h) hnd.1
      · rw [List.lookup]
        rw [show (k == a) = false by simpa using hka]
        exact h
    · rw [List.eraseP_cons_of_neg (by simpa using hak)] at h
      by_cases hka : k = a
      · subst hka
        rw [List.lookup] at h ⊢
        rw [show (k == k) = true by simp] at h ⊢
        exact h
      · rw [List.lookup] at h ⊢
        rw [show (k == a) = false by simpa using hka] at h ⊢
        exact ih hnd.2 h

theorem nodup_keys_eraseP {α : Type} (l : List (Nat × α)) (q : Nat × α → Bool)
    (hnd : (l.map Prod.fst).Nodup) : ((l.eraseP q).map Prod.fst).Nodup :=
  ((List.eraseP_sublist l).map Prod.fst).nodup hnd

/-! ## Theorems: message serialization -/

theorem PMessage.toCbor_eq (m : PMessage) :
    m.toCbor = Cbor.map [
      (.text (strBytes "id"), .uint m.id),
      (.text (strBytes "body"), m.body),
      (.text (strBytes "message_type"), .uint m.message_type.toNat),
      (.text (strBytes "span_context"), .bytes m.span_context)] := rfl

theorem PMessage.fromCbor_toCbor (m : PMessage) :
    PMessage.fromCbor m.toCbor = some m := by
  rw [PMessage.toCbor_eq]
  cases m with
  | mk id mt sc b => cases mt <;> rfl

theorem PMessage.toCbor_wf (m : PMessage) (hm : m.wfB = true) : m.toCbor.wf = true := by
  simp only [PMessage.wfB, Bool.and_eq_true, decide_eq_true_eq] at hm
  obtain ⟨⟨⟨hid, hlen⟩, hall⟩, hbody⟩ := hm
  rw [PMessage.toCbor_eq]
  have hmt : m.message_type.toNat < 2 ^ 64 := by
    cases m.message_type <;> simp [MessageType.toNat]
  simp [Cbor.wf, Cbor.wfPairs, hall, hbody, strBytes]
  norm_num at hid hlen hmt ⊢
  exact ⟨hid, hmt, hlen⟩

/-! ## Claim theorems -/

/-- C1 counterexample: a batch execution whose enclave call reports a
batch-wide error through the outputs result (the storage context itself
succeeded), with one buffered write and commit_storage set.  The sender does
receive the failed result, but the buffered write is committed to the durable
backend (the commit in call_contract_batch_fallible runs before the outputs
result is checked), so the writes are not all discarded as the claim states. -/
theorem C1_counterexample :
    (handle_contract_batch [] [] ⟨List.replicate 32 0⟩
        ⟨.ok (List.replicate 32 0, .error "batch error"), [⟨[1, 2], 7⟩]⟩ true) =
      (.error "batch error", [⟨[1, 2], 7⟩]) ∧
    ([⟨[1, 2], 7⟩] : List Insert) ≠ [] := by
  exact ⟨rfl, by decide⟩

/-- C1 (amended): on a batch-wide error the sender always receives the failed
result; the buffered writes are discarded when the storage-context call
itself fails, but when the error is reported in the enclave outputs result
the batch storage has already been committed, so with commit_storage the
buffered writes reach the durable backend before the error propagates. -/
theorem C1_batch_error_writes (backend : List Insert) (calls : List (List Nat))
    (block : WBlock) (enclave : EnclaveBatchResult) (commit_storage : Bool) :
    (∀ e, enclave.result = .error e →
      handle_contract_batch backend calls block enclave commit_storage =
        (.error e, backend)) ∧
    (∀ root e, enclave.result = .ok (root, .error e) →
      handle_contract_batch backend calls block enclave commit_storage =
        (.error e, if commit_storage then backend ++ enclave.writes else backend)) := by
  constructor
  · intro e he
    simp [handle_contract_batch, call_contract_batch_fallible, he]
  · intro root e he
    cases commit_storage <;>
      simp [handle_contract_batch, call_contract_batch_fallible, he, BatchStorage.commit]

/-- C1 amended claim applied at a concrete input. -/
theorem C1_batch_error_writes_witness :
    handle_contract_batch [] [] ⟨List.replicate 32 0⟩
        ⟨.ok (List.replicate 32 0, .error "batch error"), [⟨[1, 2], 7⟩]⟩ true =
      (.error "batch error", [⟨[1, 2], 7⟩]) := by
  have h := (C1_batch_error_writes [] [] ⟨List.replicate 32 0⟩
    ⟨.ok (List.replicate 32 0, .error "batch error"), [⟨[1, 2], 7⟩]⟩ true).2
    (List.replicate 32 0) "batch error" rfl
  simpa using h

/-- C2: in the SGX build, while no AVR is bound each of the four runtime
request kinds is answered with AttestationRequired and nothing is queued to
the dispatcher; a successful WorkerCapabilityTEERakAvrRequest binds the AVR;
and with an AVR bound every runtime request kind is queued to the
dispatcher. -/
theorem C2_attestation_gate :
    (∀ (st : ProtocolState) (id : Nat) (req : ReqBody),
      st.rak.avr = none → req.isRuntimeRequest = true →
      Protocol.handle_request st id req = (st, .error (.protocol .attestationRequired))) ∧
    (∀ (st : ProtocolState) (id : Nat) (avr : Avr), avr.valid = true →
      Protocol.handle_request st id (.workerCapabilityTEERakAvrRequest avr) =
        ({ st with rak := { st.rak with avr := some avr } },
          .ok (some .workerCapabilityTEERakAvrResponse))) ∧
    (∀ (st : ProtocolState) (id : Nat) (req : ReqBody) (a : Avr),
      st.rak.avr = some a → req.isRuntimeRequest = true →
      Protocol.handle_request st id req =
        ({ st with dispatcher_queue := st.dispatcher_queue ++ [(id, req)] },
          .ok none)) := by
  refine ⟨?_, ?_, ?_⟩
  · intro st id req havr hrt
    cases req <;> simp [ReqBody.isRuntimeRequest] at hrt <;>
      simp [Protocol.handle_request, Protocol.can_handle_runtime_requests, havr]
  · intro st id avr hv
    simp [Protocol.handle_request, RAK.set_avr, hv]
  · intro st id req a havr hrt
    cases req <;> simp [ReqBody.isRuntimeRequest] at hrt <;>
      simp [Protocol.handle_request, Protocol.can_handle_runtime_requests, havr]

/-- C2 applied at concrete states: a pre-attestation RPC call fails and is
not queued, binding a valid AVR succeeds, and a post-attestation execute
request is queued. -/
theorem C2_attestation_gate_witness :
    Protocol.handle_request ⟨⟨[], [], [], none⟩, [], [], 0, 0, 0⟩ 5
        (.workerRPCCallRequest [1]) =
      (⟨⟨[], [], [], none⟩, [], [], 0, 0, 0⟩, .error (.protocol .attestationRequired)) ∧
    Protocol.handle_request ⟨⟨[], [], [], none⟩, [], [], 0, 0, 0⟩ 6
        (.workerCapabilityTEERakAvrRequest ⟨[9], true⟩) =
      (⟨⟨[], [], [], some ⟨[9], true⟩⟩, [], [], 0, 0, 0⟩,
        .ok (some .workerCapabilityTEERakAvrResponse)) ∧
    Protocol.handle_request ⟨⟨[], [], [], some ⟨[9], true⟩⟩, [], [], 0, 0, 0⟩ 7
        (.workerExecuteTxBatchRequest .null) =
      (⟨⟨[], [], [], some ⟨[9], true⟩⟩, [(7, .workerExecuteTxBatchRequest .null)],
        [], 0, 0, 0⟩, .ok none) :=
  ⟨C2_attestation_gate.1 _ 5 _ rfl rfl,
   C2_attestation_gate.2.1 _ 6 _ rfl,
   C2_attestation_gate.2.2 _ 7 _ ⟨[9], true⟩ rfl rfl⟩

/-- C5: RuntimeClientManager::call retries exactly once on a transition
shutdown: if the first attempt fails with SHUTDOWN_REASON_TRANSITION the
call makes exactly one more attempt and returns its outcome; an error with
any other message propagates without retry; and two successive transition
failures surface the transition error to the caller. -/
theorem C5_transition_retry {α : Type} :
    (∀ (attempts : Nat → Except MError α) (e : MError),
      attempts 0 = .error e → e.message = SHUTDOWN_REASON_TRANSITION →
      RuntimeClientManager.call attempts = (attempts 1, 2)) ∧
    (∀ (attempts : Nat → Except MError α) (e : MError),
      attempts 0 = .error e → e.message ≠ SHUTDOWN_REASON_TRANSITION →
      RuntimeClientManager.call attempts = (.error e, 1)) ∧
    (∀ (attempts : Nat → Except MError α) (e e' : MError),
      attempts 0 = .error e → e.message = SHUTDOWN_REASON_TRANSITION →
      attempts 1 = .error e' → e'.message = SHUTDOWN_REASON_TRANSITION →
      RuntimeClientManager.call attempts = (.error e', 2)) := by
  refine ⟨?_, ?_, ?_⟩
  · intro attempts e h0 hmsg
    have hb : (e.message != SHUTDOWN_REASON_TRANSITION) = false := by
      simp [hmsg]
    cases h1 : attempts 1 with
    | ok a =>
      simp [RuntimeClientManager.call, retry_until_ok_or_max, retryGo, h0, hb, h1]
    | error e' =>
      by_cases hb' : e'.message = SHUTDOWN_REASON_TRANSITION
      · simp [RuntimeClientManager.call, retry_until_ok_or_max, retryGo, h0, hb, h1, hb']
      · simp [RuntimeClientManager.call, retry_until_ok_or_max, retryGo, h0, hb, h1, hb']
  · intro attempts e h0 hmsg
    have hb : (e.message != SHUTDOWN_REASON_TRANSITION) = true := by
      simp [hmsg]
    simp [RuntimeClientManager.call, retry_until_ok_or_max, retryGo, h0, hb]
  · intro attempts e e' h0 hmsg h1 hmsg'
    have hb : (e.message != SHUTDOWN_REASON_TRANSITION) = false := by simp [hmsg]
    have hb' : (e'.message != SHUTDOWN_REASON_TRANSITION) = false := by simp [hmsg']
    simp [RuntimeClientManager.call, retry_until_ok_or_max, retryGo, h0, hb, h1, hb']

/-- C5 applied at concrete attempt schedules. -/
theorem C5_transition_retry_witness :
    RuntimeClientManager.call
        (fun i => if i = 0 then (.error ⟨SHUTDOWN_REASON_TRANSITION⟩ : Except MError Nat)
          else .ok 42) = (.ok 42, 2) ∧
    RuntimeClientManager.call
        (fun _ => (.error ⟨"connection refused"⟩ : Except MError Nat)) =
      (.error ⟨"connection refused"⟩, 1) ∧
    RuntimeClientManager.call
        (fun _ => (.error ⟨SHUTDOWN_REASON_TRANSITION⟩ : Except MError Nat)) =
      (.error ⟨SHUTDOWN_REASON_TRANSITION⟩, 2) := by
  refine ⟨?_, ?_, ?_⟩
  · have h := C5_transition_retry.1
      (fun i => if i = 0 then (.error ⟨SHUTDOWN_REASON_TRANSITION⟩ : Except MError Nat)
        else .ok 42) ⟨SHUTDOWN_REASON_TRANSITION⟩ rfl rfl
    simpa using h
  · exact C5_transition_retry.2.1
      (fun _ => (.error ⟨"connection refused"⟩ : Except MError Nat))
      ⟨"connection refused"⟩ rfl (by decide)
  · exact C5_transition_retry.2.2
      (fun _ => (.error ⟨SHUTDOWN_REASON_TRANSITION⟩ : Except MError Nat))
      ⟨SHUTDOWN_REASON_TRANSITION⟩ ⟨SHUTDOWN_REASON_TRANSITION⟩ rfl rfl rfl rfl

/-- C6 counterexample: a Compute committee for the followed runtime with no
Leader member makes the follower exit the process with code 1 (the for_each
body error reaches the final then-branch, which calls process::exit), rather
than being treated as a transient resubscribe-and-continue condition. -/
theorem C6_counterexample :
    RuntimeClientManager.run_follower 0
      { leader := some { node_id := 1, client_id := 0 }, next_client_id := 1,
        notified_first := true }
      [{ kind := .compute, runtime_id := 0,
         members := [{ public_key := 2, role := .worker }], valid_for := 5 }] =
    .exited 1
      { leader := some { node_id := 1, client_id := 0 }, next_client_id := 1,
        notified_first := true } := by
  decide

/-- C6 (amended): a Compute committee of the followed runtime without a
Leader member makes handle_committee fail with the missing-committee-leader
error, and the follower then exits the process with code 1, as it does for a
fatal stream error; the error is not handled by resubscription. -/
theorem C6_missing_leader_exits (rid : Nat) (st : MgrState) (c : Committee)
    (cs : List Committee)
    (hrt : c.runtime_id = rid) (hk : c.kind = CommitteeType.compute)
    (hnl : ∀ m ∈ c.members, m.role ≠ Role.leader) :
    RuntimeClientManager.handle_committee st c =
      .error { message := "missing committee leader" } ∧
    RuntimeClientManager.run_follower rid st (c :: cs) = .exited 1 st := by
  have hfind : c.members.find? (fun m => m.role == Role.leader) = none := by
    rw [List.find?_eq_none]
    intro m hm
    simpa using hnl m hm
  have hc : RuntimeClientManager.handle_committee st c =
      .error { message := "missing committee leader" } := by
    simp [RuntimeClientManager.handle_committee, hfind]
  refine ⟨hc, ?_⟩
  rw [RuntimeClientManager.run_follower]
  rw [if_pos ⟨hrt, hk⟩, hc]

/-- C6 amended claim applied at a concrete input. -/
theorem C6_missing_leader_exits_witness :
    RuntimeClientManager.handle_committee
      { leader := none, next_client_id := 0, notified_first := false }
      { kind := .compute, runtime_id := 3,
        members := [{ public_key := 7, role := .backupWorker }], valid_for := 1 } =
      .error { message := "missing committee leader" } ∧
    RuntimeClientManager.run_follower 3
      { leader := none, next_client_id := 0, notified_first := false }
      [{ kind := .compute, runtime_id := 3,
         members := [{ public_key := 7, role := .backupWorker }], valid_for := 1 }] =
      .exited 1 { leader := none, next_client_id := 0, notified_first := false } :=
  C6_missing_leader_exits 3 _ _ [] rfl rfl (by decide)

/-- C9 counterexample: a node with one supported runtime does not survive the
protobuf round trip: the conversion serializes no runtimes and try_from
rebuilds the list as empty. -/
theorem C9_counterexample :
    Node.try_from (Node.into_api
      { id := List.replicate 32 0, eth_address := none,
        entity_id := List.replicate 32 0, expiration := 0, addresses := [],
        certificate := [], registration_time := 0,
        runtimes := [{ id := List.replicate 32 0,
                       capabilities := { tee := none } }] }) =
    .ok { id := List.replicate 32 0, eth_address := none,
          entity_id := List.replicate 32 0, expiration := 0, addresses := [],
          certificate := [], registration_time := 0, runtimes := [] } ∧
    ({ id := List.replicate 32 0, eth_address := none,
       entity_id := List.replicate 32 0, expiration := 0, addresses := [],
       certificate := [], registration_time := 0, runtimes := [] } : Node) ≠
    { id := List.replicate 32 0, eth_address := none,
      entity_id := List.replicate 32 0, expiration := 0, addresses := [],
      certificate := [], registration_time := 0,
      runtimes := [{ id := List.replicate 32 0,
                     capabilities := { tee := none } }] } := by
  exact ⟨rfl, by decide⟩

/-- C9 (amended): the protobuf round trip preserves every field of a Node
except runtimes, which always comes back empty: for well-formed nodes (32
byte ids, 20 byte ethereum address when present),
try_from (into_api n) = ok (n with runtimes erased). -/
theorem C9_node_roundtrip (n : Node)
    (hid : n.id.length = 32) (hent : n.entity_id.length = 32)
    (heth : ∀ a, n.eth_address = some a → a.length = 20) :
    Node.try_from (Node.into_api n) = .ok { n with runtimes := [] } := by
  cases hea : n.eth_address with
  | none =>
    simp [Node.try_from, Node.into_api, B256.try_from, H160.try_from, hid, hent, hea,
      Bind.bind, Except.bind]
  | some a =>
    have ha := heth a hea
    simp [Node.try_from, Node.into_api, B256.try_from, H160.try_from, hid, hent, hea, ha,
      Bind.bind, Except.bind]

/-- C9 amended claim applied at a concrete node. -/
theorem C9_node_roundtrip_witness :
    Node.try_from (Node.into_api
      { id := List.replicate 32 1, eth_address := some (List.replicate 20 2),
        entity_id := List.replicate 32 3, expiration := 9, addresses := [[4]],
        certificate := [5], registration_time := 6,
        runtimes := [{ id := List.replicate 32 0,
                       capabilities := { tee := none } }] }) =
    .ok { id := List.replicate 32 1, eth_address := some (List.replicate 20 2),
          entity_id := List.replicate 32 3, expiration := 9, addresses := [[4]],
          certificate := [5], registration_time := 6, runtimes := [] } :=
  C9_node_roundtrip _ (by decide) (by decide)
    (fun a ha => by simp at ha; simp [← ha])

/-- C10: a committee update whose (first) Leader member carries the same node
id as the installed leader leaves the manager state unchanged and performs no
action: no client is constructed, no shutdown with the transition reason is
issued, so no in-flight call can observe a transition error from the
update. -/
theorem C10_same_leader_noop (st : MgrState) (c : Committee) (prev : MLeader)
    (hldr : st.leader = some prev)
    (hfind : (c.members.find? (fun m => m.role == Role.leader)).map
      (fun m => m.public_key) = some prev.node_id) :
    RuntimeClientManager.handle_committee st c = .ok (st, []) := by
  rw [RuntimeClientManager.handle_committee, hfind, hldr]
  simp

/-- C10 applied at a concrete state and committee. -/
theorem C10_same_leader_noop_witness :
    RuntimeClientManager.handle_committee
      { leader := some { node_id := 4, client_id := 2 }, next_client_id := 3,
        notified_first := true }
      { kind := .compute, runtime_id := 0,
        members := [{ public_key := 9, role := .worker },
                    { public_key := 4, role := .leader }], valid_for := 8 } =
      .ok ({ leader := some { node_id := 4, client_id := 2 }, next_client_id := 3,
             notified_first := true }, []) :=
  C10_same_leader_noop _ _ { node_id := 4, client_id := 2 } rfl (by decide)

/-- C7 counterexample: a decoded KeepAlive message does not terminate the
receive loop: handle_message only logs it as malformed and returns ok, so
the loop continues (the claim states that such message types close the
loop). -/
theorem C7_counterexample :
    Protocol.loop_step ⟨⟨[], [], [], none⟩, [], [], 0, 0, 0⟩
        { id := 0, message_type := .keepAlive, body := .workerPingRequest } =
      .continues ⟨⟨[], [], [], none⟩, [], [], 0, 0, 0⟩ ⟨[], none⟩ := rfl

/-- C7 (amended): a decoded message whose type is neither Request nor
Response (KeepAlive) is only logged as malformed and the loop continues with
the state unchanged; a Response with an unknown id is likewise only logged
and dropped and the loop continues. -/
theorem C7_malformed_continues (st : ProtocolState) (msg : ProtoMsg) :
    (msg.message_type = .keepAlive →
      Protocol.loop_step st msg = .continues st ⟨[], none⟩) ∧
    (msg.message_type = .response →
      st.pending_out_requests.lookup msg.id = none →
      Protocol.loop_step st msg = .continues st ⟨[], none⟩) := by
  constructor
  · intro h
    simp [Protocol.loop_step, Protocol.handle_decoded, h]
  · intro h hl
    simp [Protocol.loop_step, Protocol.handle_decoded, h, Protocol.handle_response, hl]

/-- C7 amended claim applied at concrete messages. -/
theorem C7_malformed_continues_witness :
    Protocol.loop_step ⟨⟨[], [], [], none⟩, [], [], 0, 0, 0⟩
        { id := 1, message_type := .keepAlive, body := .workerPingRequest } =
      .continues ⟨⟨[], [], [], none⟩, [], [], 0, 0, 0⟩ ⟨[], none⟩ ∧
    Protocol.loop_step ⟨⟨[], [], [], none⟩, [], [], 0, 0, 0⟩
        { id := 9, message_type := .response, body := .workerPingRequest } =
      .continues ⟨⟨[], [], [], none⟩, [], [], 0, 0, 0⟩ ⟨[], none⟩ :=
  ⟨(C7_malformed_continues _ _).1 rfl, (C7_malformed_continues _ _).2 rfl rfl⟩

/-- C3: for pending requests with distinct ids, response delivery is exact:
an unmatched response id leaves the state unchanged and delivers nothing; a
matched response removes the pending entry (so the id can no longer match)
and delivers the body to exactly the registered waiter; and over any sequence
of responses arriving in any order, every delivery pairs a waiter with the
body of a response carrying its own id, and no pending entry receives more
than one delivery. -/
theorem C3_response_correlation :
    (∀ (st : ProtocolState) (rid : Nat) (body : ReqBody),
      st.pending_out_requests.lookup rid = none →
      Protocol.handle_response st rid body = (st, none)) ∧
    (∀ (st : ProtocolState) (rid : Nat) (w : Nat) (body : ReqBody),
      (st.pending_out_requests.map Prod.fst).Nodup →
      st.pending_out_requests.lookup rid = some w →
      (Protocol.handle_response st rid body).2 = some (w, body) ∧
      (Protocol.handle_response st rid body).1.pending_out_requests.lookup rid = none) ∧
    (∀ (st : ProtocolState) (resps : List (Nat × ReqBody)),
      (st.pending_out_requests.map Prod.fst).Nodup →
      (∀ d ∈ (Protocol.processResponses st resps).2,
        st.pending_out_requests.lookup d.1 = some d.2.1 ∧ (d.1, d.2.2) ∈ resps) ∧
      ((Protocol.processResponses st resps).2.map (fun d => d.1)).Nodup) := by
  refine ⟨?_, ?_, ?_⟩
  · intro st rid body hl
    simp [Protocol.handle_response, hl]
  · intro st rid w body hnd hl
    refine ⟨by simp [Protocol.handle_response, hl], ?_⟩
    simp only [Protocol.handle_response, hl]
    exact lookup_eraseP_self rid _ hnd
  · intro st resps hnd
    induction resps generalizing st with
    | nil => simp [Protocol.processResponses]
    | cons r rest ih =>
      obtain ⟨rid, body⟩ := r
      cases hl : st.pending_out_requests.lookup rid with
      | none =>
        have hstep : Protocol.handle_response st rid body = (st, none) := by
          simp [Protocol.handle_response, hl]
        obtain ⟨ihmem, ihnd⟩ := ih st hnd
        constructor
        · intro d hd
          rw [Protocol.processResponses] at hd
          simp only [hstep] at hd
          simp at hd
          obtain ⟨h1, h2⟩ := ihmem d hd
          exact ⟨h1, by simp [h2]⟩
        · rw [Protocol.processResponses]
          simp only [hstep]
          simpa using ihnd
      | some w =>
        have hstep : Protocol.handle_response st rid body =
            ({ st with pending_out_requests :=
                st.pending_out_requests.eraseP (fun p => p.1 == rid) },
              some (w, body)) := by
          simp [Protocol.handle_response, hl]
        have hnd' : ((st.pending_out_requests.eraseP
            (fun p => p.1 == rid)).map Prod.fst).Nodup :=
          nodup_keys_eraseP _ _ hnd
        obtain ⟨ihmem, ihnd⟩ :=
          ih ({ st with pending_out_requests :=
                  st.pending_out_requests.eraseP (fun p => p.1 == rid) }) hnd'
        constructor
        · intro d hd
          rw [Protocol.processResponses] at hd
          simp only [hstep] at hd
          simp at hd
          rcases hd with hd | hd
          · rw [hd]
            exact ⟨hl, by simp⟩
          · obtain ⟨h1, h2⟩ := ihmem d hd
            refine ⟨?_, by simp [h2]⟩
            exact lookup_of_lookup_eraseP rid d.1 d.2.1 _ hnd (by simpa using h1)
        · rw [Protocol.processResponses]
          simp only [hstep]
          have hnotin : ∀ d ∈ (Protocol.processResponses
              ({ st with pending_out_requests :=
                st.pending_out_requests.eraseP (fun p => p.1 == rid) }) rest).2,
              d.1 ≠ rid := by
            intro d hd heq
            obtain ⟨h1, _⟩ := ihmem d hd
            have h1' : (st.pending_out_requests.eraseP
                (fun p => p.1 == rid)).lookup rid = some d.2.1 := by
              simpa [heq] using h1
            rw [lookup_eraseP_self rid st.pending_out_requests hnd] at h1'
            exact Option.noConfusion h1'
          simp only [List.singleton_append, List.map_cons, List.nodup_cons]
          constructor
          · intro hmem
            obtain ⟨d, hd, hdid⟩ := List.mem_map.mp hmem
            exact hnotin d hd hdid
          · exact ihnd

/-- C3 applied at a concrete state with pending ids 1 and 2: an unmatched
response is dropped, a matched response delivers to the registered waiter,
and a response sequence yields deliveries with distinct ids. -/
theorem C3_response_correlation_witness :
    Protocol.handle_response ⟨⟨[], [], [], none⟩, [], [(1, 10), (2, 20)], 3, 0, 0⟩ 5
        .workerPingRequest =
      (⟨⟨[], [], [], none⟩, [], [(1, 10), (2, 20)], 3, 0, 0⟩, none) ∧
    (Protocol.handle_response ⟨⟨[], [], [], none⟩, [], [(1, 10), (2, 20)], 3, 0, 0⟩ 2
        .workerPingRequest).2 = some (20, .workerPingRequest) ∧
    ((Protocol.processResponses ⟨⟨[], [], [], none⟩, [], [(1, 10), (2, 20)], 3, 0, 0⟩
        [(2, .workerPingRequest), (1, .workerPingRequest)]).2.map
      (fun d => d.1)).Nodup :=
  ⟨C3_response_correlation.1 ⟨⟨[], [], [], none⟩, [], [(1, 10), (2, 20)], 3, 0, 0⟩ 5
      .workerPingRequest rfl,
   (C3_response_correlation.2.1 ⟨⟨[], [], [], none⟩, [], [(1, 10), (2, 20)], 3, 0, 0⟩
      2 20 .workerPingRequest (by decide) rfl).1,
   (C3_response_correlation.2.2 ⟨⟨[], [], [], none⟩, [], [(1, 10), (2, 20)], 3, 0, 0⟩
      [(2, .workerPingRequest), (1, .workerPingRequest)] (by decide)).2⟩

/-- C4: for every well-formed message whose encoding fits the limit, the
writer emits exactly the 4-byte big-endian length followed by the CBOR
payload (4 + len bytes in total) and the reader reconstructs the identical
message from those bytes, leaving the rest of the stream untouched; and any
frame whose 32-bit length prefix exceeds 100 MiB (104857600) is rejected
with MessageTooLarge after consuming only the 4 prefix bytes. -/
theorem C4_framing :
    (∀ (m : PMessage) (rest : List Nat), m.wfB = true →
      m.toCbor.encode.length ≤ MAX_MESSAGE_SIZE →
      Protocol.encode_message m =
        .ok (beBytes 4 m.toCbor.encode.length ++ m.toCbor.encode) ∧
      (beBytes 4 m.toCbor.encode.length ++ m.toCbor.encode).length =
        4 + m.toCbor.encode.length ∧
      Protocol.decode_message
          ((beBytes 4 m.toCbor.encode.length ++ m.toCbor.encode) ++ rest) =
        (.ok m, rest)) ∧
    (∀ (input : List Nat), 4 ≤ input.length →
      MAX_MESSAGE_SIZE < fromBe (input.take 4) →
      Protocol.decode_message input =
        (.error (.protocol .messageTooLarge), input.drop 4)) := by
  constructor
  · intro m rest hwf hsize
    have hlen4 : (beBytes 4 m.toCbor.encode.length).length = 4 := beBytes_length 4 _
    refine ⟨?_, ?_, ?_⟩
    · rw [Protocol.encode_message]
      rw [if_neg (by omega)]
    · simp [hlen4]
    · have htake : ((beBytes 4 m.toCbor.encode.length ++ m.toCbor.encode) ++ rest).take 4 =
          beBytes 4 m.toCbor.encode.length := by
        rw [List.append_assoc]
        exact List.take_left' hlen4
      have hdrop : ((beBytes 4 m.toCbor.encode.length ++ m.toCbor.encode) ++ rest).drop 4 =
          m.toCbor.encode ++ rest := by
        rw [List.append_assoc]
        exact List.drop_left' hlen4
      have hfb : fromBe (beBytes 4 m.toCbor.encode.length) = m.toCbor.encode.length :=
        fromBe_beBytes_of_lt 4 _ (by
          have : MAX_MESSAGE_SIZE < 256 ^ 4 := by norm_num [MAX_MESSAGE_SIZE]
          omega)
      have h4le : 4 ≤ (((beBytes 4 m.toCbor.encode.length ++ m.toCbor.encode) ++ rest)).length := by
        simp [hlen4]
      have htake2 : (m.toCbor.encode ++ rest).take m.toCbor.encode.length =
          m.toCbor.encode := List.take_left' rfl
      have hdrop2 : (m.toCbor.encode ++ rest).drop m.toCbor.encode.length = rest :=
        List.drop_left' rfl
      have hslice : cborFromSlice m.toCbor.encode = some m.toCbor :=
        cborFromSlice_encode _ (PMessage.toCbor_wf m hwf)
      rw [Protocol.decode_message, if_pos h4le, htake, hdrop, hfb,
        if_neg (by omega)]
      rw [if_pos (by simp), htake2, hdrop2, hslice]
      simp [PMessage.fromCbor_toCbor]
  · intro input h4 hbig
    rw [Protocol.decode_message, if_pos h4, if_pos hbig]

/-- C4 applied at a concrete message and at the oversize frame prefix
0x07000001 (117440513 bytes, above the 100 MiB limit). -/
theorem C4_framing_witness :
    Protocol.decode_message
        ((beBytes 4 (PMessage.toCbor ⟨0, .request, [], .null⟩).encode.length ++
          (PMessage.toCbor ⟨0, .request, [], .null⟩).encode) ++ []) =
      (.ok ⟨0, .request, [], .null⟩, []) ∧
    Protocol.decode_message [7, 0, 0, 1] =
      (.error (.protocol .messageTooLarge), []) := by
  constructor
  · exact (C4_framing.1 ⟨0, .request, [], .null⟩ [] (by decide) (by decide)).2.2
  · have h := C4_framing.2 [7, 0, 0, 1] (by decide) (by decide)
    simpa using h

set_option maxRecDepth 40000 in
/-- Supporting vector from test_consistent_hash_header in roothash.rs: the
populated header of the source test hashes to the expected value, pinning the
canonical CBOR model beyond the default-value vectors. -/
theorem header_populated_test_vector :
    (Header.encoded_hash
      { version := 42
        «namespace» := Hash.empty_hash
        round := 1000
        timestamp := 1560257841
        header_type := .roundFailed
        previous_hash := Header.default.encoded_hash
        io_root := Hash.empty_hash
        state_root := Hash.empty_hash
        messages_hash := Hash.empty_hash
        storage_signatures := none }) = [
      0xe5, 0xf8, 0xd6, 0x95, 0x8f, 0xde, 0xdf, 0x15,
      0xe7, 0x05, 0xcb, 0x8f, 0xc8, 0xe2, 0x51, 0x5d,
      0x87, 0x0c, 0x79, 0xd8, 0x0d, 0xd2, 0xfa, 0x17,
      0xf3, 0x5c, 0x9e, 0x30, 0x7c, 0xa4, 0x21, 0x5a] := by decide

set_option maxRecDepth 40000 in
/-- Supporting vector from test_consistent_hash_compute_results_header: the
populated compute results header of the source test hashes to the expected
value, exercising the omitted-when-None optional fields in the Some case. -/
theorem compute_results_header_populated_test_vector :
    (ComputeResultsHeader.encoded_hash
      { round := 42
        previous_hash := ComputeResultsHeader.default.encoded_hash
        io_root := some Hash.empty_hash
        state_root := some Hash.empty_hash
        messages_hash := some Hash.empty_hash }) = [
      0x43, 0x0f, 0xf0, 0x2f, 0xaf, 0xc5, 0x3f, 0xc0,
      0xe5, 0xeb, 0x43, 0x2a, 0xd3, 0xe8, 0xb0, 0x91,
      0x67, 0x84, 0x2a, 0x39, 0x48, 0xe0, 0x9a, 0x7e,
      0xe4, 0xbd, 0xd8, 0x8e, 0x83, 0xe0, 0x1d, 0x5a] := by decide

set_option maxRecDepth 40000 in
/-- C8: the deterministic hash vectors: the encoded hash of the default
ComputeResultsHeader, the encoded hash of the default Header, and the
messages hash of the empty message list, which equals the SHA-512/256 digest
of the empty byte string. -/
theorem C8_hash_vectors :
    ComputeResultsHeader.default.encoded_hash = [
      0x57, 0xd7, 0x3e, 0x02, 0x60, 0x9a, 0x00, 0xfc,
      0xf4, 0xca, 0x43, 0xcb, 0xf8, 0xc9, 0xf1, 0x28,
      0x67, 0xc4, 0x69, 0x42, 0xd2, 0x46, 0xfb, 0x2b,
      0x0b, 0xce, 0x42, 0xcb, 0xdb, 0x8d, 0xb8, 0x44] ∧
    Header.default.encoded_hash = [
      0xf7, 0xf3, 0x40, 0x55, 0x06, 0x30, 0x42, 0x6b,
      0x49, 0x62, 0xc3, 0x05, 0x4c, 0xb7, 0xf2, 0x1c,
      0xf3, 0x66, 0x2b, 0xd9, 0x16, 0x64, 0x2d, 0xaf,
      0xf4, 0xef, 0xc9, 0xa0, 0x0b, 0x4a, 0xab, 0x3f] ∧
    Message.messages_hash [] = Hash.empty_hash ∧
    Hash.empty_hash = [
      0xc6, 0x72, 0xb8, 0xd1, 0xef, 0x56, 0xed, 0x28,
      0xab, 0x87, 0xc3, 0x62, 0x2c, 0x51, 0x14, 0x06,
      0x9b, 0xdd, 0x3a, 0xd7, 0xb8, 0xf9, 0x73, 0x74,
      0x98, 0xd0, 0xc0, 0x1e, 0xce, 0xf0, 0x96, 0x7a] := by
  refine ⟨by decide, by decide, rfl, by decide⟩

end Oasis
